import Mathlib

/-!
Verification of the task synchronization, ordering and AI-response validation
logic of the "Dads Command Center" task-management application.

The development shallowly embeds:
* the `Task` record and the `TaskCategory` / `TaskFilter` / `Priority` enums
  (types.ts);
* `getTasksStream`, `updateTaskOrder` and `addTask` from the Firestore service
  (services/firebaseService.ts, latest revision with the completion filter);
* the `handleDragEnd` drag-and-drop reorder handler of the task list component
  together with the `arrayMove` helper it calls;
* a subscription registry capturing the live-query subscribe/unsubscribe
  contract used by the task list component;
* the AI response validation pipeline (`parseTaskWithAI`), modelled from the
  specification because the Gemini-backed implementation is exercised by the
  unit tests of the repository but its source module is not present.

Firestore documents, timestamps and snapshot pushes are modelled with plain
lists and natural numbers; fallible operations return `Except`.
-/

namespace DCC

/-- Embeds the `TaskCategory` string enum of types.ts:
`All`, `Wife`, `Daughter`, `Work`, `Chores`. -/
inductive TaskCategory where
  | all
  | wife
  | daughter
  | work
  | chores
deriving DecidableEq, Repr

/-- The stored string value of each category (the enum values in types.ts). -/
def TaskCategory.value : TaskCategory → String
  | .all => "All"
  | .wife => "Wife"
  | .daughter => "Daughter"
  | .work => "Work"
  | .chores => "Chores"

/-- Embeds `TaskFilter = 'all' | 'active' | 'completed'` of types.ts. -/
inductive TaskFilter where
  | all
  | active
  | completed
deriving DecidableEq, Repr

/-- Embeds `Priority = 'High' | 'Medium' | 'Low'` of types.ts. -/
inductive Priority where
  | high
  | medium
  | low
deriving DecidableEq, Repr

/-- Embeds the `Task` record of types.ts.  Firestore `Timestamp` values are
modelled as natural numbers of milliseconds; `dueDate` is `Timestamp | null`,
hence an `Option`.  `position` is the integer ordinal used for display order
(the code only ever writes `Date.now()` values or batch indices, both
non-negative). -/
structure Task where
  id : String
  text : String
  category : TaskCategory
  completed : Bool
  createdAt : Nat
  userId : String
  priority : Priority
  dueDate : Option Nat
  position : Nat
deriving DecidableEq, Repr

/-- The predicate applied by the Firestore query built in `getTasksStream`:
`where('userId','==',userId)`, a `where('category','==',category)` clause
added only when the category is not the synthetic `All` value, and a
`where('completed','==',…)` clause added for the `active` / `completed`
filters. -/
def matchesQuery (uid : String) (cat : TaskCategory) (filt : TaskFilter)
    (t : Task) : Bool :=
  t.userId = uid
    && (cat = TaskCategory.all || t.category = cat)
    && (match filt with
        | .all => true
        | .active => t.completed = false
        | .completed => t.completed = true)

/-- The ordering used by the query: ascending by `position`
(`orderBy('position','asc')`). -/
def posLe (a b : Task) : Prop := a.position ≤ b.position

instance : DecidableRel posLe := fun a b => Nat.decLe a.position b.position

instance : IsTotal Task posLe := ⟨fun a b => Nat.le_total a.position b.position⟩

instance : IsTrans Task posLe := ⟨fun _ _ _ => Nat.le_trans⟩

/-- The result set the store delivers for one snapshot: every stored document
matching the query, sorted ascending by `position`. -/
def queryTasks (store : List Task) (uid : String) (cat : TaskCategory)
    (filt : TaskFilter) : List Task :=
  List.insertionSort posLe (store.filter (matchesQuery uid cat filt))

/-- A store-side event delivered to an `onSnapshot` listener: either a fresh
full snapshot of the collection, or a subscription error. -/
inductive StreamEvent where
  | snap (store : List Task)
  | err (msg : String)

/-- What one `getTasksStream` call does with the subscriber callback:
`immediate` is the argument of a callback invocation made synchronously during
the call itself (the uninitialized-store path), and `onEvent` gives the
argument of the callback invocation made for a store event — `none` meaning no
listener was registered, so the callback is not invoked at all. -/
structure StreamBehavior where
  immediate : Option (List Task)
  onEvent : StreamEvent → Option (List Task)

/-- Embeds `getTasksStream` of services/firebaseService.ts (latest revision).
If the module-level `db` handle is not initialized the function warns, calls
`callback([])` at once and returns a no-op unsubscribe without registering any
listener.  Otherwise it registers an `onSnapshot` listener whose success
branch maps the snapshot documents through the query and whose error branch
logs and calls `callback([])`. -/
def getTasksStream (dbInitialized : Bool) (uid : String) (cat : TaskCategory)
    (filt : TaskFilter) : StreamBehavior :=
  if dbInitialized then
    { immediate := none
      onEvent := fun ev =>
        match ev with
        | .snap store => some (queryTasks store uid cat filt)
        | .err _ => some [] }
  else
    { immediate := some ([] : List Task), onEvent := fun _ => none }

/-- The batch built by `updateTaskOrder` of services/firebaseService.ts: for
each task of the list, in order, one `batch.update(taskRef, { position:
index })` write, recorded as the pair of the document id and the written
position. -/
def updateTaskOrderBatch (tasks : List Task) : List (String × Nat) :=
  tasks.enum.map (fun p => (p.2.id, p.1))

/-- Embeds `updateTaskOrder`: the batch of position writes is committed;
`storeOutcome` stands for the result of `batch.commit()`.  On failure the
code logs the error and re-throws it unchanged, so the same error value
propagates to the caller. -/
def updateTaskOrder (tasks : List Task) (storeOutcome : Except String Unit) :
    Except String (List (String × Nat)) :=
  match storeOutcome with
  | .ok _ => .ok (updateTaskOrderBatch tasks)
  | .error e => .error e

/-- Embeds `arrayMove` of the dnd-kit sortable package, as called by
`handleDragEnd`: `newArray.splice(to, 0, newArray.splice(from, 1)[0])` —
remove the element at `fromIdx`, then insert it at `toIdx` of the shortened
array, `splice` clamping an insertion index past the end to the end.  When
`fromIdx` is out of range the removal extracts nothing and the list is
returned unchanged (drag gestures always supply in-range indices). -/
def arrayMove (l : List Task) (fromIdx toIdx : Nat) : List Task :=
  match l.get? fromIdx with
  | none => l
  | some x =>
      (l.eraseIdx fromIdx).insertIdx (min toIdx (l.eraseIdx fromIdx).length) x

/-- The standard stable list-move operation in the words of the spec: remove
the item at `oldIndex` and insert it at `newIndex`. -/
def specListMove (l : List Task) (oldIndex newIndex : Nat) : List Task :=
  match l.get? oldIndex with
  | none => l
  | some x => (l.eraseIdx oldIndex).insertIdx newIndex x

/-- The outcome of one drag-end gesture: the list the component displays
afterwards (its `tasks` state) and the store write it issued, if any, with
the result of that write. -/
structure DragResult where
  localTasks : List Task
  write : Option (Except String (List (String × Nat)))

/-- Embeds `handleDragEnd` of the task list component: when a drop target
exists and `active.id !== over.id`, the old and new indices are looked up by
document id, the list is reordered with `arrayMove`, each task of the new
order gets `position := index`, and `updateTaskOrder` is called on that list;
the reordered list becomes the new component state regardless of the write
outcome (the promise is neither awaited nor caught).  Otherwise nothing
happens. -/
def handleDragEnd (tasks : List Task) (activeId : String)
    (overId : Option String) (storeOutcome : Except String Unit) : DragResult :=
  match overId with
  | none => { localTasks := tasks, write := none }
  | some over =>
      if activeId ≠ over then
        let oldIndex := tasks.findIdx (fun t => t.id = activeId)
        let newIndex := tasks.findIdx (fun t => t.id = over)
        let reordered := arrayMove tasks oldIndex newIndex
        let updatedForFirebase :=
          reordered.enum.map (fun p => { p.2 with position := p.1 })
        { localTasks := reordered
          write := some (updateTaskOrder updatedForFirebase storeOutcome) }
      else
        { localTasks := tasks, write := none }

/-- C3: dropping the dragged item over itself leaves the local list unchanged
and issues no store write: `handleDragEnd` guards on `active.id !== over.id`
and in the equal case performs no state update and no call at all. -/
theorem dragEnd_same_item_noop (tasks : List Task) (a : String)
    (storeOutcome : Except String Unit) :
    handleDragEnd tasks a (some a) storeOutcome =
      { localTasks := tasks, write := none } := by
  simp [handleDragEnd]

/-- C4: every subscription error makes `getTasksStream` hand the subscriber an
empty list (it never throws), and with an uninitialized store handle the
callback is invoked synchronously with an empty list while no listener is
registered (no event ever reaches the callback), the failure being logged and
never retried. -/
theorem getTasksStream_degrades_to_empty (uid : String) (cat : TaskCategory)
    (filt : TaskFilter) (msg : String) :
    (getTasksStream true uid cat filt).onEvent (.err msg) = some [] ∧
    (getTasksStream false uid cat filt).immediate = some [] ∧
    ∀ ev, (getTasksStream false uid cat filt).onEvent ev = none := by
  refine ⟨rfl, rfl, fun ev => rfl⟩

/-- On in-range indices, dnd-kit `arrayMove` is exactly the standard stable
list-move of the spec: the clamp of the insertion index is inactive. -/
lemma arrayMove_eq_specListMove (l : List Task) (i j : Nat)
    (hi : i < l.length) (hj : j < l.length) :
    arrayMove l i j = specListMove l i j := by
  unfold arrayMove specListMove
  rw [List.get?_eq_get hi]
  have h1 : (l.eraseIdx i).length = l.length - 1 := List.length_eraseIdx_of_lt hi
  have hjle : j ≤ (l.eraseIdx i).length := by omega
  rw [min_eq_left hjle]

/-- The list-move of an in-range element preserves the length of the list. -/
lemma length_specListMove (l : List Task) (i j : Nat)
    (hi : i < l.length) (hj : j < l.length) :
    (specListMove l i j).length = l.length := by
  unfold specListMove
  rw [List.get?_eq_get hi]
  have h1 : (l.eraseIdx i).length = l.length - 1 := List.length_eraseIdx_of_lt hi
  have hjle : j ≤ (l.eraseIdx i).length := by omega
  rw [List.length_insertIdx _ _ hjle, h1]
  omega

/-- The positions written by the reorder batch are the indices `0..N-1`. -/
lemma updateTaskOrderBatch_positions (l : List Task) :
    (updateTaskOrderBatch l).map Prod.snd = List.range l.length := by
  unfold updateTaskOrderBatch
  rw [List.map_map]
  have h : (Prod.snd ∘ fun p : Nat × Task => (p.2.id, p.1)) = Prod.fst := rfl
  rw [h, List.enum_map_fst]

/-- The documents targeted by the reorder batch are the tasks of the list, in
list order. -/
lemma updateTaskOrderBatch_ids (l : List Task) :
    (updateTaskOrderBatch l).map Prod.fst = l.map Task.id := by
  unfold updateTaskOrderBatch
  rw [List.map_map]
  have h : (Prod.fst ∘ fun p : Nat × Task => (p.2.id, p.1)) =
      Task.id ∘ Prod.snd := rfl
  rw [h, ← List.map_map, List.enum_map_snd]

/-- Rewriting every position to the index leaves the ids of the list, in
order, unchanged. -/
lemma setPositions_ids (l : List Task) :
    ((l.enum.map (fun p => { p.2 with position := p.1 })).map Task.id) =
      l.map Task.id := by
  rw [List.map_map]
  have h : (Task.id ∘ fun p : Nat × Task => { p.2 with position := p.1 }) =
      Task.id ∘ Prod.snd := rfl
  rw [h, ← List.map_map, List.enum_map_snd]

/-- Rewriting every position to the index preserves the length. -/
lemma setPositions_length (l : List Task) :
    (l.enum.map (fun p => { p.2 with position := p.1 })).length = l.length := by
  simp

/-- C1: a reorder gesture between two distinct displayed items produces, as
the new local list, exactly the standard stable list-move of the old list
(remove at `oldIndex`, insert at `newIndex`), and the single batched write it
issues targets the moved list's documents in their new order, assigning each
one the position equal to its zero-based index, i.e. the dense sequence
`0..N-1`. -/
theorem dragEnd_reorder_matches_move_and_dense
    (tasks : List Task) (a b : String) (i j : Nat)
    (storeOutcome : Except String Unit)
    (hia : tasks.findIdx (fun t => t.id = a) = i)
    (hjb : tasks.findIdx (fun t => t.id = b) = j)
    (hi : i < tasks.length) (hj : j < tasks.length)
    (hab : a ≠ b) :
    (handleDragEnd tasks a (some b) storeOutcome).localTasks =
        specListMove tasks i j ∧
    (handleDragEnd tasks a (some b) storeOutcome).write =
        some (updateTaskOrder
          ((specListMove tasks i j).enum.map
            (fun p => { p.2 with position := p.1 }))
          storeOutcome) ∧
    (updateTaskOrderBatch
        ((specListMove tasks i j).enum.map
          (fun p => { p.2 with position := p.1 }))).map Prod.snd =
      List.range tasks.length ∧
    (updateTaskOrderBatch
        ((specListMove tasks i j).enum.map
          (fun p => { p.2 with position := p.1 }))).map Prod.fst =
      (specListMove tasks i j).map Task.id := by
  have hmove : arrayMove tasks i j = specListMove tasks i j :=
    arrayMove_eq_specListMove tasks i j hi hj
  have hlen : (specListMove tasks i j).length = tasks.length :=
    length_specListMove tasks i j hi hj
  refine ⟨?_, ?_, ?_, ?_⟩
  · simp only [handleDragEnd, hia, hjb, hab, ne_eq, not_false_iff, if_true,
      hmove]
  · simp only [handleDragEnd, hia, hjb, hab, ne_eq, not_false_iff, if_true,
      hmove]
  · rw [updateTaskOrderBatch_positions, setPositions_length, hlen]
  · rw [updateTaskOrderBatch_ids, setPositions_ids]

/-- C1 witness: moving the first of three tasks onto the third. -/
def sampleTask (i : String) (n : Nat) : Task :=
  { id := i, text := "t", category := .work, completed := false,
    createdAt := 0, userId := "u", priority := .medium, dueDate := none,
    position := n }

/-- A concrete displayed list of three tasks. -/
def sampleTasks : List Task :=
  [sampleTask "a" 0, sampleTask "b" 1, sampleTask "c" 2]

/-- C1 witness at a concrete input: the gesture dragging task `a` onto task
`c` in a three-task list. -/
theorem dragEnd_reorder_matches_move_and_dense_witness :
    (handleDragEnd sampleTasks "a" (some "c") (Except.ok ())).localTasks =
        specListMove sampleTasks 0 2 ∧
    (updateTaskOrderBatch
        ((specListMove sampleTasks 0 2).enum.map
          (fun p => { p.2 with position := p.1 }))).map Prod.snd =
      List.range sampleTasks.length := by
  have h := dragEnd_reorder_matches_move_and_dense sampleTasks "a" "c" 0 2
    (Except.ok ()) (by decide) (by decide) (by decide) (by decide) (by decide)
  exact ⟨h.1, h.2.2.1⟩

/-- C2: when the batched position write fails, the error is surfaced to the
caller unchanged (`updateTaskOrder` re-throws it), while the component keeps
the optimistic new order: the local list after a failed write equals the moved
list, the same list a successful write leaves — no rollback happens. -/
theorem dragEnd_failure_surfaced_no_rollback
    (tasks : List Task) (a b : String) (i j : Nat) (e : String)
    (hia : tasks.findIdx (fun t => t.id = a) = i)
    (hjb : tasks.findIdx (fun t => t.id = b) = j)
    (hi : i < tasks.length) (hj : j < tasks.length)
    (hab : a ≠ b) :
    (handleDragEnd tasks a (some b) (Except.error e)).localTasks =
        specListMove tasks i j ∧
    (handleDragEnd tasks a (some b) (Except.error e)).localTasks =
        (handleDragEnd tasks a (some b) (Except.ok ())).localTasks ∧
    (handleDragEnd tasks a (some b) (Except.error e)).write =
        some (Except.error e) := by
  have hmove : arrayMove tasks i j = specListMove tasks i j :=
    arrayMove_eq_specListMove tasks i j hi hj
  refine ⟨?_, ?_, ?_⟩
  · simp only [handleDragEnd, hia, hjb, hab, ne_eq, not_false_iff, if_true,
      hmove]
  · simp only [handleDragEnd, hia, hjb, hab, ne_eq, not_false_iff, if_true]
  · simp only [handleDragEnd, hia, hjb, hab, ne_eq, not_false_iff, if_true,
      updateTaskOrder]

/-- C2 witness at a concrete input: a failed commit for the gesture dragging
task `a` onto task `c`. -/
theorem dragEnd_failure_surfaced_no_rollback_witness :
    (handleDragEnd sampleTasks "a" (some "c")
        (Except.error "unavailable")).localTasks =
      specListMove sampleTasks 0 2 ∧
    (handleDragEnd sampleTasks "a" (some "c")
        (Except.error "unavailable")).write =
      some (Except.error "unavailable") := by
  have h := dragEnd_failure_surfaced_no_rollback sampleTasks "a" "c" 0 2
    "unavailable" (by decide) (by decide) (by decide) (by decide) (by decide)
  exact ⟨h.1, h.2.2⟩

/-- C5: a task list subscribed with the `completed` filter contains only
records whose `completed` field is true, and the `active` filter yields only
records with `completed` false — for every user, every category selection and
every store contents (hence after any sequence of completion toggles). -/
theorem queryTasks_filter_matches_completion
    (store : List Task) (uid : String) (cat : TaskCategory) (t : Task) :
    (t ∈ queryTasks store uid cat TaskFilter.completed → t.completed = true) ∧
    (t ∈ queryTasks store uid cat TaskFilter.active → t.completed = false) := by
  constructor <;> intro hmem
  · have h2 : t ∈ store.filter (matchesQuery uid cat TaskFilter.completed) :=
      (List.Perm.mem_iff (List.perm_insertionSort _ _)).1 hmem
    have h3 := List.of_mem_filter h2
    simp only [matchesQuery, Bool.and_eq_true, decide_eq_true_eq] at h3
    exact h3.2
  · have h2 : t ∈ store.filter (matchesQuery uid cat TaskFilter.active) :=
      (List.Perm.mem_iff (List.perm_insertionSort _ _)).1 hmem
    have h3 := List.of_mem_filter h2
    simp only [matchesQuery, Bool.and_eq_true, decide_eq_true_eq] at h3
    exact h3.2

/-- A concrete completed task for the filter witness. -/
def completedTask : Task := { sampleTask "d" 0 with completed := true }

/-- C5 witness at a concrete input: a one-document store holding a completed
task, subscribed with the `completed` filter. -/
theorem queryTasks_filter_matches_completion_witness :
    completedTask ∈
        queryTasks [completedTask] "u" TaskCategory.all TaskFilter.completed ∧
    completedTask.completed = true := by
  have hmem : completedTask ∈
      queryTasks [completedTask] "u" TaskCategory.all TaskFilter.completed := by
    decide
  exact ⟨hmem,
    (queryTasks_filter_matches_completion [completedTask] "u"
      TaskCategory.all completedTask).1 hmem⟩

/-- The parameters of one live-query subscription: the (user, category,
filter) triple the task list component passes to `getTasksStream`. -/
structure SubParams where
  uid : String
  cat : TaskCategory
  filt : TaskFilter
deriving DecidableEq, Repr

/-- The store-side listener registry behind `onSnapshot`: each call of
`getTasksStream` registers one listener under a fresh identity, and the
`Unsubscribe` handle it returns removes exactly that listener.  The task list
component calls the handle once on teardown or parameter change. -/
structure Registry where
  nextId : Nat
  active : List (Nat × SubParams)
deriving DecidableEq, Repr

/-- Registering a listener: it receives the next fresh identity. -/
def Registry.subscribe (s : Registry) (p : SubParams) : Nat × Registry :=
  (s.nextId, { nextId := s.nextId + 1, active := s.active ++ [(s.nextId, p)] })

/-- Invoking the unsubscribe handle of listener `i`: the listener is removed
from the registry. -/
def Registry.unsubscribe (s : Registry) (i : Nat) : Registry :=
  { s with active := s.active.filter (fun e => e.1 ≠ i) }

/-- A store push: every currently registered listener is invoked with the
query result for its own parameters.  The result pairs each invoked listener
identity with the list handed to its callback. -/
def Registry.pushTargets (s : Registry) (store : List Task) :
    List (Nat × List Task) :=
  s.active.map (fun e => (e.1, queryTasks store e.2.uid e.2.cat e.2.filt))

/-- Subsequent subscription activity after an unsubscribe: further
subscriptions (e.g. remounts or parameter changes) and unsubscriptions. -/
inductive SubEvent where
  | sub (p : SubParams)
  | unsub (i : Nat)

/-- One registry transition. -/
def Registry.step (s : Registry) : SubEvent → Registry
  | .sub p => (s.subscribe p).2
  | .unsub i => s.unsubscribe i

/-- A sequence of registry transitions. -/
def Registry.run (s : Registry) (evs : List SubEvent) : Registry :=
  evs.foldl Registry.step s

/-- Listener identity `i` is dead in `s`: it was allocated in the past and is
no longer registered. -/
def Registry.Dead (s : Registry) (i : Nat) : Prop :=
  i < s.nextId ∧ ∀ e ∈ s.active, e.1 ≠ i

/-- A dead listener identity stays dead across any single transition: fresh
identities are never reused and unsubscribing only removes listeners. -/
lemma Registry.Dead.step {s : Registry} {i : Nat} (h : s.Dead i)
    (ev : SubEvent) : (s.step ev).Dead i := by
  obtain ⟨hlt, hact⟩ := h
  cases ev with
  | sub p =>
      refine ⟨Nat.lt_succ_of_lt hlt, ?_⟩
      intro e he
      simp only [Registry.step, Registry.subscribe, List.mem_append,
        List.mem_singleton] at he
      rcases he with he | he
      · exact hact e he
      · subst he
        exact Nat.ne_of_gt hlt
  | unsub k =>
      refine ⟨hlt, ?_⟩
      intro e he
      exact hact e (List.mem_of_mem_filter he)

/-- A dead listener identity stays dead across any sequence of transitions. -/
lemma Registry.Dead.run {s : Registry} {i : Nat} (h : s.Dead i)
    (evs : List SubEvent) : (s.run evs).Dead i := by
  induction evs generalizing s with
  | nil => exact h
  | cons ev rest ih => exact ih (h.step ev)

/-- C6: once the unsubscribe handle of listener `i` has been invoked, no
subsequent store push ever invokes that listener again, whatever further
subscribe/unsubscribe activity happens in between: every callback invocation
of every later push targets a listener identity different from `i`. -/
theorem unsubscribe_no_stale_callback
    (s : Registry) (i : Nat) (evs : List SubEvent) (store : List Task)
    (hi : i < s.nextId) :
    ∀ tgt ∈ ((s.unsubscribe i).run evs).pushTargets store, tgt.1 ≠ i := by
  have hdead : (s.unsubscribe i).Dead i := by
    refine ⟨hi, ?_⟩
    intro e he
    have := List.of_mem_filter he
    simpa using this
  have hrun := hdead.run evs
  intro tgt htgt
  simp only [Registry.pushTargets, List.mem_map] at htgt
  obtain ⟨e, he, rfl⟩ := htgt
  exact hrun.2 e he

/-- A concrete subscription parameter triple. -/
def sampleParams : SubParams :=
  { uid := "u", cat := TaskCategory.all, filt := TaskFilter.all }

/-- A registry with one live listener (identity 0). -/
def sampleRegistry : Registry := { nextId := 1, active := [(0, sampleParams)] }

/-- C6 witness at a concrete input: unsubscribe listener 0, then a remount
subscribes again (identity 1) and a push arrives; the push targets listener 1
only, and the theorem yields that this target is not the stale listener 0. -/
theorem unsubscribe_no_stale_callback_witness :
    ((1 : Nat),
      queryTasks sampleTasks sampleParams.uid sampleParams.cat
        sampleParams.filt).1 ≠ 0 := by
  refine unsubscribe_no_stale_callback sampleRegistry 0
    [SubEvent.sub sampleParams] sampleTasks (by decide) _ ?_
  simp [Registry.unsubscribe, Registry.run, Registry.step,
    Registry.subscribe, Registry.pushTargets, sampleRegistry]

/-- The document written by `addTask` of services/firebaseService.ts.  The
conversion `Timestamp.fromDate(new Date(details.dueDate))` is abstracted as
an optional timestamp; `createdAt` is the server timestamp `Timestamp.now()`;
`nowMs` is the wall clock `Date.now()` in milliseconds. -/
structure NewTaskDoc where
  userId : String
  text : String
  category : TaskCategory
  completed : Bool
  createdAt : Nat
  priority : Priority
  dueDate : Option Nat
  position : Nat
deriving DecidableEq, Repr

/-- Embeds `addTask`: the created record has `completed: false`,
`priority: details.priority || 'Medium'`, and `position: Date.now()`. -/
def addTask (userId text : String) (category : TaskCategory)
    (priority : Option Priority) (dueDate : Option Nat)
    (nowMs serverNow : Nat) : NewTaskDoc :=
  { userId := userId, text := text, category := category, completed := false,
    createdAt := serverNow, priority := priority.getD Priority.medium,
    dueDate := dueDate, position := nowMs }

/-- In a list sorted ascending by position, an element whose position is
strictly greater than that of every other element is the last element. -/
lemma sorted_max_getLast (l : List Task) (t : Task)
    (hs : List.Sorted posLe l) (hmem : t ∈ l)
    (hmax : ∀ u ∈ l, u ≠ t → u.position < t.position) :
    l.getLast? = some t := by
  induction l with
  | nil => cases hmem
  | cons a rest ih =>
    have hsa := List.sorted_cons.mp hs
    cases rest with
    | nil =>
        have : t = a := by simpa using hmem
        subst this
        rfl
    | cons r rs =>
        rw [List.getLast?_cons_cons]
        by_cases ht : t ∈ r :: rs
        · exact ih hsa.2 ht (fun u hu hune => hmax u (List.mem_cons_of_mem a hu) hune)
        · have hta : t = a := by
            rcases List.mem_cons.mp hmem with h | h
            · exact h
            · exact absurd h ht
          subst hta
          have hrne : r ≠ t := fun h => ht (h ▸ List.mem_cons_self r rs)
          have hlt : r.position < t.position :=
            hmax r (List.mem_cons_of_mem t (List.mem_cons_self r rs)) hrne
          have hle : posLe t r := hsa.1 r (List.mem_cons_self r rs)
          exact absurd hle (by simp [posLe]; omega)

/-- C10: `addTask` sets the new record's `position` to the wall-clock
creation time `Date.now()`, not to a dense index; since every full-reorder
batch writes only the indices `0..N-1`, a task created at a wall-clock instant
at least `N` has a position strictly greater than every rewritten index, and
in every position-ascending view whose other members carry smaller positions
the new task sorts last. -/
theorem addTask_position_wall_clock
    (userId text : String) (cat : TaskCategory) (prio : Option Priority)
    (dd : Option Nat) (nowMs serverNow : Nat) (tasks : List Task)
    (h : tasks.length ≤ nowMs) :
    (addTask userId text cat prio dd nowMs serverNow).position = nowMs ∧
    (∀ w ∈ updateTaskOrderBatch tasks, w.2 < nowMs) ∧
    (∀ (store : List Task) (t : Task) (uid : String) (c : TaskCategory)
        (f : TaskFilter),
      t.position = nowMs →
      (∀ u ∈ store, u.position < nowMs) →
      t ∈ queryTasks (store ++ [t]) uid c f →
      (queryTasks (store ++ [t]) uid c f).getLast? = some t) := by
  refine ⟨rfl, ?_, ?_⟩
  · intro w hw
    have h1 : w.2 ∈ (updateTaskOrderBatch tasks).map Prod.snd :=
      List.mem_map_of_mem Prod.snd hw
    rw [updateTaskOrderBatch_positions] at h1
    have := List.mem_range.1 h1
    omega
  · intro store t uid c f hpos hsmall hmem
    refine sorted_max_getLast _ t (List.sorted_insertionSort posLe _) hmem ?_
    intro u hu hune
    have hu2 : u ∈ (store ++ [t]).filter (matchesQuery uid c f) :=
      (List.Perm.mem_iff (List.perm_insertionSort _ _)).1 hu
    have hu3 : u ∈ store ++ [t] := List.mem_of_mem_filter hu2
    rcases List.mem_append.mp hu3 with h4 | h4
    · rw [hpos]
      exact hsmall u h4
    · exact absurd (by simpa using h4) hune

/-- C10 witness at a concrete input: a task created at wall-clock 1000 after
a three-task reorder; its position is 1000, the batch indices are below 1000,
and in the all-tasks view it sorts last. -/
theorem addTask_position_wall_clock_witness :
    (addTask "u" "x" TaskCategory.work none none 1000 5).position = 1000 ∧
    (("a", (0 : Nat)) : String × Nat).2 < 1000 ∧
    (queryTasks (sampleTasks ++ [sampleTask "z" 1000]) "u" TaskCategory.all
        TaskFilter.all).getLast? = some (sampleTask "z" 1000) := by
  have h := addTask_position_wall_clock "u" "x" TaskCategory.work none none
    1000 5 sampleTasks (by decide)
  refine ⟨h.1, ?_, ?_⟩
  · exact h.2.1 ("a", 0) (by decide)
  · exact h.2.2 sampleTasks (sampleTask "z" 1000) "u" TaskCategory.all
      TaskFilter.all (by decide) (by decide) (by decide)

/-! ### AI response validation

Modelled from the spec: the Gemini-backed `parseTaskWithAI` described in §4.2
of the specification is exercised by the unit tests of the repository
(services/aiService.test.ts) but its source module is not present — the
aiService module in the tree holds an explicitly mocked placeholder.  The
definitions below model the missing routine from the words of §4.2: strip
code-fence markup, parse the payload as a JSON object of string fields,
report distinct typed failures for an empty payload and for a payload that is
not valid JSON, validate `category` against the closed category set and
`dueDate` against the strict `YYYY-MM-DD` pattern (silently dropping invalid
values), and classify upstream SDK errors by substring match. -/

/-- Whitespace recognised when trimming and between JSON tokens. -/
def isWsChar (c : Char) : Bool := c = ' ' || c = '\n' || c = '\t' || c = '\r'

/-- Drops leading whitespace characters. -/
def skipWs : List Char → List Char
  | [] => []
  | c :: rest => if isWsChar c then skipWs rest else c :: rest

/-- The double-quote character. -/
def quoteChar : Char := Char.ofNat 34

/-- The backslash character. -/
def backslashChar : Char := Char.ofNat 92

/-- The opening-brace character. -/
def lbraceChar : Char := Char.ofNat 123

/-- The closing-brace character. -/
def rbraceChar : Char := Char.ofNat 125

/-- The backtick character used by markdown code fences. -/
def backtickChar : Char := Char.ofNat 96

/-- Reads the body of a JSON string after its opening quote, up to the
closing quote; a backslash escapes the character after it (escapes beyond
quote and backslash are kept as the escaped letter, which the claims never
exercise).  Returns the body and the remaining input. -/
def parseStringBody : List Char → Option (List Char × List Char)
  | [] => none
  | c :: rest =>
    if c = quoteChar then some ([], rest)
    else if c = backslashChar then
      match rest with
      | [] => none
      | e :: rest2 =>
        match parseStringBody rest2 with
        | none => none
        | some (acc, rem) => some (e :: acc, rem)
    else
      match parseStringBody rest with
      | none => none
      | some (acc, rem) => some (c :: acc, rem)

/-- Reads one JSON string literal, skipping leading whitespace. -/
def parseJsonString (cs : List Char) : Option (String × List Char) :=
  match skipWs cs with
  | [] => none
  | c :: rest =>
    if c = quoteChar then
      match parseStringBody rest with
      | none => none
      | some (acc, rem) => some (String.mk acc, rem)
    else none

/-- Reads a non-empty comma-separated member list `"key": "value", …` up to
and including the closing brace.  `fuel` bounds the recursion and is supplied
larger than the input length. -/
def parseMembers (fuel : Nat) (cs : List Char) :
    Option (List (String × String) × List Char) :=
  match fuel with
  | 0 => none
  | fuel + 1 =>
    match parseJsonString cs with
    | none => none
    | some (key, rest1) =>
      match skipWs rest1 with
      | [] => none
      | c :: rest2 =>
        if c = ':' then
          match parseJsonString rest2 with
          | none => none
          | some (v, rest3) =>
            match skipWs rest3 with
            | [] => none
            | c2 :: rest4 =>
              if c2 = ',' then
                match parseMembers fuel rest4 with
                | none => none
                | some (ms, rem) => some ((key, v) :: ms, rem)
              else if c2 = rbraceChar then some ([(key, v)], rest4)
              else none
        else none

/-- Modelled from the spec: parse the payload as a single JSON object whose
fields are strings (the AI adapter contract of §6 lists only the optional
string fields `title`, `description`, `category`, `dueDate`).  Any payload
that is not such an object yields `none` — a parse failure. -/
def parseJsonObject (s : String) : Option (List (String × String)) :=
  match skipWs s.data with
  | [] => none
  | c :: rest =>
    if c = lbraceChar then
      match skipWs rest with
      | [] => none
      | c2 :: rest2 =>
        if c2 = rbraceChar then
          if (skipWs rest2).isEmpty then some [] else none
        else
          match parseMembers (s.length + 1) (c2 :: rest2) with
          | none => none
          | some (ms, rem) =>
            if (skipWs rem).isEmpty then some ms else none
    else none

/-- Decides whether the second list starts with the first. -/
def startsWithChars : List Char → List Char → Bool
  | [], _ => true
  | _ :: _, [] => false
  | p :: ps, c :: cs => p = c && startsWithChars ps cs

/-- The characters of a ```` ```json ```` fence opener. -/
def fenceJson : List Char :=
  [backtickChar, backtickChar, backtickChar, 'j', 's', 'o', 'n']

/-- The characters of a plain ```` ``` ```` fence. -/
def fencePlain : List Char := [backtickChar, backtickChar, backtickChar]

/-- Modelled from the spec: strip any leading/trailing markdown code-fence
markup (and surrounding whitespace) from the raw payload before parsing. -/
def stripCodeFences (s : String) : String :=
  let cs := skipWs s.data
  let cs := if startsWithChars fenceJson cs then cs.drop 7
            else if startsWithChars fencePlain cs then cs.drop 3 else cs
  let rs := skipWs cs.reverse
  let rs := if startsWithChars fencePlain rs then rs.drop 3 else rs
  String.mk (skipWs rs.reverse)

/-- Whether a string is empty or whitespace-only (the `apiKey.trim() === ''`
guard). -/
def wsOnly (s : String) : Bool := (skipWs s.data).isEmpty

/-- The structured result of AI parsing (the `ParsedTaskData` interface):
every field optional. -/
structure ParsedTaskData where
  title : Option String
  description : Option String
  category : Option String
  dueDate : Option String
deriving DecidableEq, Repr

/-- The closed set of allowed category values — the `TaskCategory` enum
values excluding the synthetic `All` view value. -/
def allowedCategories : List String := ["Wife", "Daughter", "Work", "Chores"]

/-- The strict `YYYY-MM-DD` pattern of the spec: exactly four digits, a dash,
two digits, a dash, two digits. -/
def isValidDueDate (s : String) : Bool :=
  match s.data with
  | [a, b, c, d, e, f, g, h2, i, j] =>
    a.isDigit && b.isDigit && c.isDigit && d.isDigit && e = '-' &&
    f.isDigit && g.isDigit && h2 = '-' && i.isDigit && j.isDigit
  | _ => false

/-- The value of a field of the parsed object, if present (first match). -/
def lookupField (fields : List (String × String)) (k : String) :
    Option String :=
  (fields.find? (fun p => p.1 = k)).map Prod.snd

/-- Modelled from the spec: validation of the successfully parsed object —
`title` and `description` pass through, an unrecognised `category` and a
non-conforming `dueDate` are silently dropped, never an error. -/
def validateParsed (fields : List (String × String)) : ParsedTaskData :=
  { title := lookupField fields "title"
    description := lookupField fields "description"
    category := (lookupField fields "category").filter
      (fun c => allowedCategories.contains c)
    dueDate := (lookupField fields "dueDate").filter isValidDueDate }

/-- The typed failures of the AI parsing routine, one per distinct
user-facing error category of §7. -/
inductive AiError where
  | missingApiKey
  | blocked (reason : String) (message : Option String)
  | noCandidate
  | emptyResponse
  | notValidJson
  | invalidApiKey
  | notAuthorized
  | quotaExceeded
  | generic (message : String)
deriving DecidableEq, Repr

/-- The distinct human-readable message of each failure category. -/
def AiError.userMessage : AiError → String
  | .missingApiKey =>
      "Gemini API key is missing. Please configure it in settings to use AI features."
  | .blocked r m =>
      "AI request was blocked: " ++ r ++ ". " ++
        m.getD "No specific message provided."
  | .noCandidate =>
      "AI model did not return a valid response candidate. Please try again."
  | .emptyResponse =>
      "AI model returned an empty text response. Please try again."
  | .notValidJson =>
      "AI model response was not valid JSON. Please try rephrasing your request."
  | .invalidApiKey =>
      "Invalid Gemini API Key. Please check your key in settings."
  | .notAuthorized =>
      "Gemini API Key is not authorized, permission denied, or project billing may not be configured."
  | .quotaExceeded =>
      "AI request quota exceeded. Please try again later or check your Gemini project quotas."
  | .generic m => "Failed to process task with AI: " ++ m

/-- Decides whether `p` occurs as a contiguous sublist. -/
def hasSubList (p : List Char) : List Char → Bool
  | [] => p.isEmpty
  | c :: cs => startsWithChars p (c :: cs) || hasSubList p cs

/-- Substring containment on strings (the `message.includes(…)` checks). -/
def strContains (s pat : String) : Bool := hasSubList pat.data s.data

/-- Modelled from the spec: best-effort classification of an upstream SDK
error by substring match against its message text, first match wins —
invalid credential, then authorization/billing, then quota exhaustion, else
the generic failure carrying the upstream text. -/
def classifySdkError (msg : String) : AiError :=
  if strContains msg "API key not valid" then .invalidApiKey
  else if strContains msg "permission denied" then .notAuthorized
  else if strContains msg "quota" then .quotaExceeded
  else .generic msg

/-- What the upstream adapter call produced: a raw text payload, a thrown SDK
error, a blocked prompt, or a response without usable candidates. -/
inductive AiOutcome where
  | ok (raw : String)
  | thrown (msg : String)
  | blocked (reason : String) (message : Option String)
  | noCandidates

/-- Modelled from the spec: the full `parseTaskWithAI` routine.  A missing or
whitespace-only key fails at once; a thrown SDK error is classified by
substring; a blocked prompt and a candidate-less response give their own
failures; a text payload is rejected as `emptyResponse` when empty, stripped
of code fences, parsed as JSON (failure: `notValidJson`), and validated. -/
def parseTaskWithAI (apiKey : String) (outcome : AiOutcome) :
    Except AiError ParsedTaskData :=
  if wsOnly apiKey then .error .missingApiKey
  else
    match outcome with
    | .thrown msg => .error (classifySdkError msg)
    | .blocked r m => .error (.blocked r m)
    | .noCandidates => .error .noCandidate
    | .ok raw =>
      if raw = "" then .error .emptyResponse
      else
        match parseJsonObject (stripCodeFences raw) with
        | none => .error .notValidJson
        | some fields => .ok (validateParsed fields)

/-- C7: a non-empty payload that is not valid JSON fails with the distinct
not-valid-JSON error, the empty payload fails with the distinct
empty-response error, and the two are different from each other and from
every generic failure, as typed values and as user-facing messages. -/
theorem ai_malformed_payload_errors (apiKey raw : String)
    (hk : wsOnly apiKey = false) (hne : raw ≠ "")
    (hbad : parseJsonObject (stripCodeFences raw) = none) :
    parseTaskWithAI apiKey (AiOutcome.ok raw) =
        Except.error AiError.notValidJson ∧
    parseTaskWithAI apiKey (AiOutcome.ok "") =
        Except.error AiError.emptyResponse ∧
    AiError.notValidJson ≠ AiError.emptyResponse ∧
    (∀ m, AiError.notValidJson ≠ AiError.generic m ∧
      AiError.emptyResponse ≠ AiError.generic m) ∧
    AiError.notValidJson.userMessage ≠ AiError.emptyResponse.userMessage := by
  refine ⟨?_, ?_, by decide, ?_, by decide⟩
  · simp [parseTaskWithAI, hk, hne, hbad]
  · simp [parseTaskWithAI, hk]
  · intro m
    exact ⟨fun h => AiError.noConfusion h, fun h => AiError.noConfusion h⟩

/-- C7 witness at the concrete inputs of the spec: raw text
`This is not JSON.` versus the empty payload. -/
theorem ai_malformed_payload_errors_witness :
    parseTaskWithAI "key" (AiOutcome.ok "This is not JSON.") =
        Except.error AiError.notValidJson ∧
    parseTaskWithAI "key" (AiOutcome.ok "") =
        Except.error AiError.emptyResponse := by
  have h := ai_malformed_payload_errors "key" "This is not JSON."
    (by decide) (by decide) (by decide)
  exact ⟨h.1, h.2.1⟩

/-- C8: on a successfully parsed payload the routine returns the validated
result without error; an unrecognised category value is silently dropped, a
valid one kept unchanged, a non-conforming dueDate silently dropped, a
conforming one kept unchanged, and title/description pass through. -/
theorem ai_validation_drops_invalid_fields (apiKey raw : String)
    (fields : List (String × String))
    (hk : wsOnly apiKey = false) (hne : raw ≠ "")
    (hparse : parseJsonObject (stripCodeFences raw) = some fields) :
    parseTaskWithAI apiKey (AiOutcome.ok raw) =
        Except.ok (validateParsed fields) ∧
    (∀ c, lookupField fields "category" = some c →
      allowedCategories.contains c = false →
      (validateParsed fields).category = none) ∧
    (∀ c, lookupField fields "category" = some c →
      allowedCategories.contains c = true →
      (validateParsed fields).category = some c) ∧
    (∀ d, lookupField fields "dueDate" = some d →
      isValidDueDate d = false → (validateParsed fields).dueDate = none) ∧
    (∀ d, lookupField fields "dueDate" = some d →
      isValidDueDate d = true → (validateParsed fields).dueDate = some d) ∧
    (validateParsed fields).title = lookupField fields "title" ∧
    (validateParsed fields).description = lookupField fields "description" := by
  refine ⟨?_, ?_, ?_, ?_, ?_, rfl, rfl⟩
  · simp [parseTaskWithAI, hk, hne, hparse]
  · intro c hc hbad
    simp [validateParsed, hc, Option.filter, hbad]
    simpa using hbad
  · intro c hc hgood
    simp [validateParsed, hc, Option.filter, hgood]
    simpa using hgood
  · intro d hd hbad
    simp [validateParsed, hd, Option.filter, hbad]
  · intro d hd hgood
    simp [validateParsed, hd, Option.filter, hgood]

/-- C8 witness at the concrete input of the spec: the payload with the
unrecognised category `Shopping` and the conforming dueDate `2024-08-15`;
the category is dropped, the dueDate kept, the rest returned. -/
theorem ai_validation_drops_invalid_fields_witness :
    parseTaskWithAI "key" (AiOutcome.ok
        "\x7b\"title\":\"Buy groceries\",\"category\":\"Shopping\",\"dueDate\":\"2024-08-15\"\x7d") =
      Except.ok (validateParsed
        [("title", "Buy groceries"), ("category", "Shopping"),
          ("dueDate", "2024-08-15")]) ∧
    (validateParsed
        [("title", "Buy groceries"), ("category", "Shopping"),
          ("dueDate", "2024-08-15")]).category = none ∧
    (validateParsed
        [("title", "Buy groceries"), ("category", "Shopping"),
          ("dueDate", "2024-08-15")]).dueDate = some "2024-08-15" ∧
    (validateParsed
        [("title", "Buy groceries"), ("category", "Shopping"),
          ("dueDate", "2024-08-15")]).title = some "Buy groceries" := by
  have h := ai_validation_drops_invalid_fields "key"
    "\x7b\"title\":\"Buy groceries\",\"category\":\"Shopping\",\"dueDate\":\"2024-08-15\"\x7d"
    [("title", "Buy groceries"), ("category", "Shopping"),
      ("dueDate", "2024-08-15")]
    (by decide) (by decide) (by decide)
  exact ⟨h.1, h.2.1 "Shopping" (by decide) (by decide),
    h.2.2.2.2.1 "2024-08-15" (by decide) (by decide), by decide⟩

/-- C9: classification of upstream SDK errors is a first-match substring test
on the message text, so a message containing `quota` (and no earlier-checked
trigger) maps to the distinct quota-exhaustion message, which mentions quota,
and a message containing `permission denied` (and no earlier-checked trigger)
maps to the distinct authorization/billing message, which mentions both. -/
theorem ai_error_substring_classification (apiKey msg msg2 : String)
    (hk : wsOnly apiKey = false)
    (hq : strContains msg "quota" = true)
    (hq1 : strContains msg "API key not valid" = false)
    (hq2 : strContains msg "permission denied" = false)
    (hp : strContains msg2 "permission denied" = true)
    (hp1 : strContains msg2 "API key not valid" = false) :
    parseTaskWithAI apiKey (AiOutcome.thrown msg) =
        Except.error AiError.quotaExceeded ∧
    strContains AiError.quotaExceeded.userMessage "quota" = true ∧
    parseTaskWithAI apiKey (AiOutcome.thrown msg2) =
        Except.error AiError.notAuthorized ∧
    strContains AiError.notAuthorized.userMessage "authorized" = true ∧
    strContains AiError.notAuthorized.userMessage "billing" = true ∧
    AiError.quotaExceeded ≠ AiError.notAuthorized ∧
    AiError.quotaExceeded.userMessage ≠ AiError.notAuthorized.userMessage := by
  refine ⟨?_, by decide, ?_, by decide, by decide, by decide, by decide⟩
  · simp [parseTaskWithAI, classifySdkError, hk, hq, hq1, hq2]
  · simp [parseTaskWithAI, classifySdkError, hk, hp, hp1]

/-- C9 witness at the concrete inputs of the repository tests: the SDK
messages `User quota exceeded` and
`permission denied or something like that`. -/
theorem ai_error_substring_classification_witness :
    parseTaskWithAI "key" (AiOutcome.thrown "User quota exceeded") =
        Except.error AiError.quotaExceeded ∧
    parseTaskWithAI "key"
        (AiOutcome.thrown "permission denied or something like that") =
      Except.error AiError.notAuthorized := by
  have h := ai_error_substring_classification "key" "User quota exceeded"
    "permission denied or something like that"
    (by decide) (by decide) (by decide) (by decide) (by decide) (by decide)
  exact ⟨h.1, h.2.2.1⟩

end DCC
